import Mathlib

/-!
Verification of the real-time speech-to-text WebSocket session loop
(`websocket_transcribe` in `app/api/routes/stt.py`).

The session loop is shallowly embedded: the mutable session variables
(`audio_buffer`, `last_process_time`, `last_chunk_time`,
`transcription_history`) become a state record, wall-clock reads become
explicit rational-number parameters, and the external transcription engine
(`stt_service.transcribe_stream`, which may raise) becomes an explicit
outcome parameter of each step.  Outbound JSON events are modelled as a
record with one optional field per JSON key that the handler ever emits.

One observational simplification: in Python the dict returned by
`process_audio_buffer` is aliased into `transcription_history`, so the
relabelling `result["type"] = "final_transcription"` (or
`"silence_transcription"`) also mutates the `type` field of the last
history entry.  History entries are only ever read for their `text` field
and their count, and history is cleared right after the only relabelling
that touches it, so the immutable model below is observationally
equivalent for every emitted event.
-/

namespace RealtimeSTT

/-- Python's `str.strip()`: remove leading and trailing whitespace.
Implemented directly on the character list so that concrete instances
reduce inside the kernel. -/
def pyStrip (s : String) : String :=
  String.mk (((s.data.dropWhile Char.isWhitespace).reverse.dropWhile Char.isWhitespace).reverse)

/-- Minimum buffer size in bytes before a transcription pass runs
(`min_chunk_size = 4096`, stt.py line 162). -/
def min_chunk_size : Nat := 4096

/-- Time-based processing interval in seconds (`process_interval = 1.0`,
stt.py line 161). -/
def process_interval : ℚ := 1

/-- Silence threshold in seconds (`silence_threshold = 5.0`, stt.py line 163). -/
def silence_threshold : ℚ := 5

/-- An outbound JSON event.  Each optional field corresponds to a JSON key
that some branch of `websocket_transcribe` puts in a sent dict; `none`
models the key being absent. -/
structure Event where
  type : String
  message : Option String := none
  text : Option String := none
  language : Option String := none
  processing_time_ms : Option ℚ := none
  buffer_size : Option Nat := none
  timestamp : Option ℚ := none
  debug_info : Option String := none
  chunk_size : Option Nat := none
  total_size : Option Nat := none
  full_text : Option String := none
  total_segments : Option Nat := none
deriving Repr, DecidableEq

/-- The mutable per-session variables of `websocket_transcribe`
(stt.py lines 158-165).  Audio bytes are modelled as a list of naturals;
timestamps as rationals (seconds). -/
structure SttState where
  audio_buffer : List Nat
  last_process_time : ℚ
  last_chunk_time : ℚ
  transcription_history : List Event
deriving Repr, DecidableEq

/-- Outcome of one call into the external engine
`stt_service.transcribe_stream`: either a result dict (text, language) or a
raised exception carrying a message. -/
inductive EngineOutcome where
  | ok (text language : String)
  | exn (msg : String)
deriving Repr, DecidableEq

/-- History update of `process_audio_buffer` (stt.py lines 207-209):
append, then `pop(0)` when the length exceeds 10. -/
def pushHistory (h : List Event) (t : Event) : List Event :=
  let h2 := h ++ [t]
  if h2.length > 10 then h2.tail else h2

/-- The `transcription` dict built by `process_audio_buffer`
(stt.py lines 190-202): text is stripped, and a `debug_info` key is added
exactly when the stripped text is empty. -/
def mkTranscription (text language : String) (pt now : ℚ) (bufLen : Nat) : Event :=
  let t := pyStrip text
  { type := "partial_transcription"
    text := some t
    language := some language
    processing_time_ms := some pt
    buffer_size := some bufLen
    timestamp := some now
    debug_info := if t = "" then some "No speech detected in audio buffer" else none }

/-- `process_audio_buffer` (stt.py lines 170-219).  Returns `none` without
consulting the engine when the buffer is below `min_chunk_size`; on an
engine exception it returns an error dict and leaves the history untouched
(the exception fires before the history append).  `pt` is the measured
engine processing time in ms, `now` the wall clock at the result timestamp. -/
def process_audio_buffer (engine : EngineOutcome) (pt now : ℚ) (st : SttState) :
    Option Event × SttState :=
  if st.audio_buffer.length < min_chunk_size then (none, st)
  else
    match engine with
    | .ok text language =>
        let tr := mkTranscription text language pt now st.audio_buffer.length
        (some tr, { st with transcription_history := pushHistory st.transcription_history tr })
    | .exn msg =>
        (some { type := "error", message := some ("Transcription failed: " ++ msg) }, st)

/-- Overlap trim after a size/time-triggered pass (stt.py lines 281-284):
when the buffer exceeds `2 * min_chunk_size`, keep only the trailing
`len // 2` bytes (`audio_buffer[-overlap_size:]`). -/
def retain_overlap (buf : List Nat) : List Nat :=
  if buf.length > min_chunk_size * 2 then
    buf.drop (buf.length - buf.length / 2)
  else buf

/-- Relabelling `result["type"] = ...` done by the stop and silence
branches before sending. -/
def setType (ty : String) (e : Event) : Event := { e with type := ty }

/-- The chunk acknowledgement sent on every binary message
(stt.py lines 249-254). -/
def chunkAck (chunkSize totalSize : Nat) : Event :=
  { type := "chunk_received", chunk_size := some chunkSize, total_size := some totalSize }

/-- Binary-chunk branch of the session loop (stt.py lines 241-285):
append the chunk, stamp `last_chunk_time`, acknowledge, then evaluate
`should_process` (time elapsed since last process ≥ interval, or buffer ≥
`2 * min_chunk_size`); when it holds, run a pass, send its result if any,
advance `last_process_time`, and apply the overlap trim. -/
def handle_bytes (engine : EngineOutcome) (pt now : ℚ) (chunk : List Nat) (st : SttState) :
    List Event × SttState :=
  let buf := st.audio_buffer ++ chunk
  let st1 : SttState := { st with audio_buffer := buf, last_chunk_time := now }
  let ack := chunkAck chunk.length buf.length
  if now - st.last_process_time ≥ process_interval ∨ buf.length ≥ min_chunk_size * 2 then
    let pr := process_audio_buffer engine pt now st1
    let st2 : SttState := { pr.2 with last_process_time := now }
    (ack :: pr.1.toList, { st2 with audio_buffer := retain_overlap st2.audio_buffer })
  else ([ack], st1)

/-- The `session_complete` summary dict (stt.py lines 322-328): `full_text`
joins the non-empty `text` fields of the history with single spaces
(`" ".join([t.get("text", "") for t in transcription_history if t.get("text", "")])`),
and `total_segments` is the history length. -/
def sessionSummary (history : List Event) : Event :=
  { type := "session_complete"
    full_text := some (String.intercalate " "
      ((history.map fun t => t.text.getD "").filter fun s => s ≠ ""))
    total_segments := some history.length }

/-- Text-message branch of the session loop (stt.py lines 287-341):
strip the token, ignore it when empty; `start_recording` resets all
session variables; `stop_recording` force-processes a non-empty buffer,
relabels the result `final_transcription`, emits the session summary and
resets buffer and history; `ping` answers `pong`; unknown tokens are
ignored. -/
def handle_text (engine : EngineOutcome) (pt now : ℚ) (raw : String) (st : SttState) :
    List Event × SttState :=
  let msg := pyStrip raw
  if msg = "" then ([], st)
  else if msg = "start_recording" then
    ([{ type := "recording_started", message := some "Real-time transcription started" }],
     { audio_buffer := [], last_process_time := now, last_chunk_time := now,
       transcription_history := [] })
  else if msg = "stop_recording" then
    let pr := if st.audio_buffer.length > 0
      then process_audio_buffer engine pt now st
      else (none, st)
    ((pr.1.map (setType "final_transcription")).toList ++
       [sessionSummary pr.2.transcription_history],
     { pr.2 with audio_buffer := [], transcription_history := [] })
  else if msg = "ping" then ([{ type := "pong" }], st)
  else ([], st)

/-- Receive-timeout branch of the session loop (stt.py lines 346-374):
if no chunk arrived for more than `silence_threshold` and the buffer is
non-empty, run a pass, relabel its result `silence_transcription`, clear
the buffer entirely and advance `last_process_time`; otherwise after 30 s
of chunk silence send a keepalive ping. -/
def handle_timeout (engine : EngineOutcome) (pt now : ℚ) (st : SttState) :
    List Event × SttState :=
  if now - st.last_chunk_time > silence_threshold ∧ st.audio_buffer.length > 0 then
    let pr := process_audio_buffer engine pt now st
    ((pr.1.map (setType "silence_transcription")).toList,
     { pr.2 with audio_buffer := [], last_process_time := now })
  else if now - st.last_chunk_time > 30 then
    ([{ type := "ping", message := some "Server ping - connection alive" }], st)
  else ([], st)

/-- One inbound occurrence seen by the receive loop: a binary chunk, a
text message, a receive timeout, or a disconnect.  The engine outcome and
the wall-clock readings for the iteration ride along as oracle data. -/
inductive Inbound where
  | bytesMsg (chunk : List Nat) (engine : EngineOutcome) (pt now : ℚ)
  | textMsg (raw : String) (engine : EngineOutcome) (pt now : ℚ)
  | timeoutTick (engine : EngineOutcome) (pt now : ℚ)
  | disconnect
deriving Repr

/-- One iteration of the `while True` receive loop (stt.py lines 223-380).
The final `Bool` is `true` when the loop continues and `false` when it
breaks (disconnect). -/
def step : Inbound → SttState → List Event × SttState × Bool
  | .bytesMsg chunk e pt now, st =>
      let r := handle_bytes e pt now chunk st; (r.1, r.2, true)
  | .textMsg raw e pt now, st =>
      let r := handle_text e pt now raw st; (r.1, r.2, true)
  | .timeoutTick e pt now, st =>
      let r := handle_timeout e pt now st; (r.1, r.2, true)
  | .disconnect, st => ([], st, false)

/-- Session variables as initialised right after the connection is
accepted (stt.py lines 158-165). -/
def initState (t0 : ℚ) : SttState :=
  { audio_buffer := [], last_process_time := t0, last_chunk_time := t0,
    transcription_history := [] }

/-- Run the session loop over a list of inbound occurrences, returning the
final state. -/
def run (inputs : List Inbound) (st : SttState) : SttState :=
  inputs.foldl (fun s i => (step i s).2.1) st

/-! ## Basic lemmas about the embedded handlers -/

lemma pyStrip_stop : pyStrip "stop_recording" = "stop_recording" := by decide

lemma pyStrip_ping : pyStrip "ping" = "ping" := by decide

/-- A pass on a sub-threshold buffer returns no result and leaves the
state untouched, whatever the engine would have answered. -/
lemma process_of_lt (e : EngineOutcome) (pt now : ℚ) (st : SttState)
    (h : st.audio_buffer.length < min_chunk_size) :
    process_audio_buffer e pt now st = (none, st) := by
  simp [process_audio_buffer, h]

/-- A pass on a buffer at or above the threshold always returns a result
dict (a transcription or an error dict). -/
lemma process_isSome (e : EngineOutcome) (pt now : ℚ) (st : SttState)
    (h : min_chunk_size ≤ st.audio_buffer.length) :
    (process_audio_buffer e pt now st).1.isSome := by
  cases e <;> simp [process_audio_buffer, Nat.not_lt.mpr h]

/-- `process_audio_buffer` never mutates the audio buffer. -/
lemma process_buffer (e : EngineOutcome) (pt now : ℚ) (st : SttState) :
    (process_audio_buffer e pt now st).2.audio_buffer = st.audio_buffer := by
  unfold process_audio_buffer
  split
  · rfl
  · cases e <;> rfl

/-- `process_audio_buffer` never touches the timestamps. -/
lemma process_times (e : EngineOutcome) (pt now : ℚ) (st : SttState) :
    (process_audio_buffer e pt now st).2.last_process_time = st.last_process_time ∧
      (process_audio_buffer e pt now st).2.last_chunk_time = st.last_chunk_time := by
  unfold process_audio_buffer
  split
  · exact ⟨rfl, rfl⟩
  · cases e <;> exact ⟨rfl, rfl⟩

/-- An engine exception leaves the history untouched (the exception fires
before the history append). -/
lemma process_exn_history (msg : String) (pt now : ℚ) (st : SttState) :
    (process_audio_buffer (.exn msg) pt now st).2.transcription_history
      = st.transcription_history := by
  unfold process_audio_buffer
  split <;> rfl

/-- The bounded-history push keeps the length at 10 or below. -/
lemma pushHistory_length_le (h : List Event) (t : Event) (hl : h.length ≤ 10) :
    (pushHistory h t).length ≤ 10 := by
  simp only [pushHistory]
  split
  · next hc =>
      simp only [List.length_tail, List.length_append, List.length_singleton] at *
      omega
  · next hc =>
      simp only [List.length_append, List.length_singleton] at *
      omega

/-- `process_audio_buffer` keeps the history at 10 entries or below. -/
lemma process_history_le (e : EngineOutcome) (pt now : ℚ) (st : SttState)
    (hl : st.transcription_history.length ≤ 10) :
    (process_audio_buffer e pt now st).2.transcription_history.length ≤ 10 := by
  unfold process_audio_buffer
  split
  · exact hl
  · cases e
    · exact pushHistory_length_le _ _ hl
    · exact hl

/-- Characterization of the bounded-history push on reachable histories:
below 10 entries it is a plain append, at 10 entries the head (oldest
entry) is evicted first. -/
lemma pushHistory_eq (h : List Event) (t : Event) (hl : h.length ≤ 10) :
    pushHistory h t = if h.length < 10 then h ++ [t] else h.tail ++ [t] := by
  simp only [pushHistory]
  split
  · have hlen : h.length = 10 := by
      simp only [List.length_append, List.length_singleton] at *
      omega
    rw [if_neg (by omega)]
    cases h with
    | nil => simp at hlen
    | cons a as => simp
  · have hlt : h.length < 10 := by
      simp only [List.length_append, List.length_singleton] at *
      omega
    rw [if_pos hlt]

/-- Unfolding of the text handler at the `stop_recording` token. -/
lemma handle_text_stop_eq (e : EngineOutcome) (pt now : ℚ) (st : SttState) :
    handle_text e pt now "stop_recording" st =
      (let pr := if st.audio_buffer.length > 0
         then process_audio_buffer e pt now st else (none, st)
       ((pr.1.map (setType "final_transcription")).toList ++
          [sessionSummary pr.2.transcription_history],
        { pr.2 with audio_buffer := [], transcription_history := [] })) := by
  simp only [handle_text, pyStrip_stop]
  rw [if_neg (by decide), if_neg (by decide), if_pos trivial]

/-- Unfolding of the text handler at the `ping` token. -/
lemma handle_text_ping_eq (e : EngineOutcome) (pt now : ℚ) (st : SttState) :
    handle_text e pt now "ping" st = ([{ type := "pong" }], st) := by
  simp only [handle_text, pyStrip_ping]
  rw [if_neg (by decide), if_neg (by decide), if_neg (by decide), if_pos trivial]

/-- An engine exception leaves the whole session state unchanged. -/
lemma process_exn_snd (msg : String) (pt now : ℚ) (st : SttState) :
    (process_audio_buffer (.exn msg) pt now st).2 = st := by
  unfold process_audio_buffer
  split <;> rfl

/-- At or above the threshold, an engine exception is converted into an
error dict carrying the failure message, and the state is untouched. -/
lemma process_exn_eq (msg : String) (pt now : ℚ) (st : SttState)
    (h : min_chunk_size ≤ st.audio_buffer.length) :
    process_audio_buffer (.exn msg) pt now st
      = (some { type := "error", message := some ("Transcription failed: " ++ msg) }, st) := by
  simp [process_audio_buffer, Nat.not_lt.mpr h]

/-- Unfolding of the chunk handler when `should_process` holds. -/
lemma handle_bytes_process_eq (e : EngineOutcome) (pt now : ℚ) (chunk : List Nat)
    (st : SttState)
    (hsp : now - st.last_process_time ≥ process_interval ∨
           (st.audio_buffer ++ chunk).length ≥ min_chunk_size * 2) :
    handle_bytes e pt now chunk st =
      (let pr := process_audio_buffer e pt now
         { st with audio_buffer := st.audio_buffer ++ chunk, last_chunk_time := now }
       (chunkAck chunk.length (st.audio_buffer ++ chunk).length :: pr.1.toList,
        { pr.2 with audio_buffer := retain_overlap pr.2.audio_buffer,
                    last_process_time := now })) := by
  simp only [handle_bytes]
  rw [if_pos hsp]

/-- Unfolding of the timeout handler when the silence condition holds. -/
lemma handle_timeout_silence_eq (e : EngineOutcome) (pt now : ℚ) (st : SttState)
    (h : now - st.last_chunk_time > silence_threshold ∧ st.audio_buffer.length > 0) :
    handle_timeout e pt now st =
      (((process_audio_buffer e pt now st).1.map (setType "silence_transcription")).toList,
       { (process_audio_buffer e pt now st).2 with
           audio_buffer := [], last_process_time := now }) := by
  simp only [handle_timeout]
  rw [if_pos h]

/-! ## Claim C1 -/

/-- A session state holding a single sub-threshold audio byte. -/
def tinyBufferState : SttState :=
  { audio_buffer := [37], last_process_time := 0, last_chunk_time := 0,
    transcription_history := [] }

/-- C1 counterexample: a `stop_recording` command arriving with a
non-empty 1-byte buffer does not invoke any transcription pass, contrary
to the claim that forced flushes bypass the 4096-byte threshold.  The
handler emits only the `session_complete` summary, and its outcome is
identical whether the engine would have succeeded or thrown — so the
engine is never consulted. -/
theorem c1_counterexample :
    (handle_text (.ok "hello" "en") 5 10 "stop_recording" tinyBufferState).1
        = [sessionSummary []] ∧
      handle_text (.ok "hello" "en") 5 10 "stop_recording" tinyBufferState
        = handle_text (.exn "engine unavailable") 5 10 "stop_recording" tinyBufferState := by
  constructor
  · rw [handle_text_stop_eq]
    rw [if_pos (by decide), process_of_lt _ _ _ _ (by decide)]
    rfl
  · rw [handle_text_stop_eq, handle_text_stop_eq]
    rw [if_pos (by decide), if_pos (by decide),
        process_of_lt _ _ _ _ (by decide), process_of_lt _ _ _ _ (by decide)]

/-- C1 (amended): the 4096-byte minimum-chunk threshold applies in every
situation, including the stop and silence forced flushes: a non-empty
buffer shorter than 4096 bytes is never transcribed — the stop branch
emits only the session summary and the silence branch emits nothing
(both merely call `process_audio_buffer`, which skips sub-threshold
buffers). -/
theorem c1_threshold_applies_to_forced_flush (e : EngineOutcome) (pt now : ℚ)
    (st : SttState) (h0 : 0 < st.audio_buffer.length)
    (h1 : st.audio_buffer.length < min_chunk_size) :
    (handle_text e pt now "stop_recording" st).1
        = [sessionSummary st.transcription_history] ∧
      (now - st.last_chunk_time > silence_threshold →
        (handle_timeout e pt now st).1 = []) := by
  constructor
  · rw [handle_text_stop_eq]
    rw [if_pos h0, process_of_lt e pt now st h1]
    rfl
  · intro hs
    rw [handle_timeout_silence_eq e pt now st ⟨hs, h0⟩]
    rw [process_of_lt e pt now st h1]
    rfl

/-- Witness for the amended C1 at a concrete 1-byte buffer. -/
theorem c1_threshold_applies_to_forced_flush_witness :
    (0 < tinyBufferState.audio_buffer.length ∧
        tinyBufferState.audio_buffer.length < min_chunk_size) ∧
      ((handle_text (.ok "a" "en") 0 7 "stop_recording" tinyBufferState).1
          = [sessionSummary tinyBufferState.transcription_history] ∧
        ((7 : ℚ) - tinyBufferState.last_chunk_time > silence_threshold →
          (handle_timeout (.ok "a" "en") 0 7 tinyBufferState).1 = [])) :=
  ⟨⟨by decide, by decide⟩,
   c1_threshold_applies_to_forced_flush (.ok "a" "en") 0 7 tinyBufferState
     (by decide) (by decide)⟩

/-! ## Claim C2 -/

/-- C2: the per-chunk trigger evaluation never reaches the transcription
engine while the (post-append) buffer is below `min_chunk_size`: the only
event emitted is the chunk acknowledgement, and the whole outcome is
independent of what the engine would have answered. -/
theorem c2_no_engine_invocation_below_min (e e2 : EngineOutcome) (pt now : ℚ)
    (chunk : List Nat) (st : SttState)
    (h : (st.audio_buffer ++ chunk).length < min_chunk_size) :
    (handle_bytes e pt now chunk st).1
        = [chunkAck chunk.length (st.audio_buffer ++ chunk).length] ∧
      handle_bytes e pt now chunk st = handle_bytes e2 pt now chunk st := by
  simp only [handle_bytes]
  by_cases hsp : now - st.last_process_time ≥ process_interval ∨
      (st.audio_buffer ++ chunk).length ≥ min_chunk_size * 2
  · simp only [if_pos hsp]
    rw [process_of_lt e pt now _ (by simpa using h),
        process_of_lt e2 pt now _ (by simpa using h)]
    exact ⟨rfl, rfl⟩
  · simp only [if_neg hsp]
    constructor <;> trivial

/-- Witness for C2: a 3-byte chunk into an empty buffer. -/
theorem c2_no_engine_invocation_below_min_witness :
    (((initState 0).audio_buffer ++ [1, 2, 3]).length < min_chunk_size) ∧
      ((handle_bytes (.ok "x" "en") 0 2 [1, 2, 3] (initState 0)).1
          = [chunkAck [1, 2, 3].length ((initState 0).audio_buffer ++ [1, 2, 3]).length] ∧
        handle_bytes (.ok "x" "en") 0 2 [1, 2, 3] (initState 0)
          = handle_bytes (.exn "boom") 0 2 [1, 2, 3] (initState 0)) :=
  ⟨by decide,
   c2_no_engine_invocation_below_min (.ok "x" "en") (.exn "boom") 0 2 [1, 2, 3]
     (initState 0) (by decide)⟩

/-! ## Claim C3 -/

/-- C3: after a size/time-triggered pass, the buffer is trimmed to exactly
the trailing half (rounded down) whenever its pre-trim length exceeds
`2 * min_chunk_size = 8192` bytes, and is left unchanged otherwise.  The
trimmed buffer is stated both as the concrete `drop` of the prefix and
abstractly as a suffix of half the length. -/
theorem c3_overlap_retention (e : EngineOutcome) (pt now : ℚ) (chunk : List Nat)
    (st : SttState)
    (hsp : now - st.last_process_time ≥ process_interval ∨
           (st.audio_buffer ++ chunk).length ≥ min_chunk_size * 2) :
    ((st.audio_buffer ++ chunk).length > 2 * min_chunk_size →
        (handle_bytes e pt now chunk st).2.audio_buffer
            = (st.audio_buffer ++ chunk).drop
                ((st.audio_buffer ++ chunk).length - (st.audio_buffer ++ chunk).length / 2) ∧
          (handle_bytes e pt now chunk st).2.audio_buffer.length
            = (st.audio_buffer ++ chunk).length / 2 ∧
          (handle_bytes e pt now chunk st).2.audio_buffer.IsSuffix
            (st.audio_buffer ++ chunk)) ∧
      (¬ (st.audio_buffer ++ chunk).length > 2 * min_chunk_size →
        (handle_bytes e pt now chunk st).2.audio_buffer = st.audio_buffer ++ chunk) := by
  have hb : (handle_bytes e pt now chunk st).2.audio_buffer
      = retain_overlap (st.audio_buffer ++ chunk) := by
    rw [handle_bytes_process_eq e pt now chunk st hsp]
    simp only [process_buffer]
  constructor
  · intro hgt
    have hgt' : (st.audio_buffer ++ chunk).length > min_chunk_size * 2 := by omega
    rw [hb, retain_overlap, if_pos hgt']
    refine ⟨rfl, ?_, List.drop_suffix _ _⟩
    rw [List.length_drop]
    omega
  · intro hle
    rw [hb, retain_overlap, if_neg (by omega)]

/-- Witness for C3: a 9000-byte chunk (≥ 8192) triggers a pass and the
trim, leaving the trailing 4500 bytes. -/
theorem c3_overlap_retention_witness :
    ((2 : ℚ) - (initState 0).last_process_time ≥ process_interval ∨
        ((initState 0).audio_buffer ++ List.replicate 9000 7).length ≥ min_chunk_size * 2) ∧
      ((((initState 0).audio_buffer ++ List.replicate 9000 7).length > 2 * min_chunk_size →
          (handle_bytes (.ok "hi" "en") 0 2 (List.replicate 9000 7) (initState 0)).2.audio_buffer
              = ((initState 0).audio_buffer ++ List.replicate 9000 7).drop
                  (((initState 0).audio_buffer ++ List.replicate 9000 7).length
                    - ((initState 0).audio_buffer ++ List.replicate 9000 7).length / 2) ∧
            (handle_bytes (.ok "hi" "en") 0 2 (List.replicate 9000 7)
                (initState 0)).2.audio_buffer.length
              = ((initState 0).audio_buffer ++ List.replicate 9000 7).length / 2 ∧
            (handle_bytes (.ok "hi" "en") 0 2 (List.replicate 9000 7)
                (initState 0)).2.audio_buffer.IsSuffix
              ((initState 0).audio_buffer ++ List.replicate 9000 7)) ∧
        (¬ ((initState 0).audio_buffer ++ List.replicate 9000 7).length > 2 * min_chunk_size →
          (handle_bytes (.ok "hi" "en") 0 2 (List.replicate 9000 7) (initState 0)).2.audio_buffer
              = (initState 0).audio_buffer ++ List.replicate 9000 7)) :=
  ⟨Or.inl (by norm_num [initState, process_interval]),
   c3_overlap_retention (.ok "hi" "en") 0 2 (List.replicate 9000 7) (initState 0)
     (Or.inl (by norm_num [initState, process_interval]))⟩

/-! ## Claim C4 -/

/-- The chunk handler keeps the history at 10 entries or below. -/
lemma handle_bytes_history_le (e : EngineOutcome) (pt now : ℚ) (chunk : List Nat)
    (st : SttState) (h : st.transcription_history.length ≤ 10) :
    (handle_bytes e pt now chunk st).2.transcription_history.length ≤ 10 := by
  simp only [handle_bytes]
  split
  · exact process_history_le e pt now _ h
  · exact h

/-- The text handler keeps the history at 10 entries or below. -/
lemma handle_text_history_le (e : EngineOutcome) (pt now : ℚ) (raw : String)
    (st : SttState) (h : st.transcription_history.length ≤ 10) :
    (handle_text e pt now raw st).2.transcription_history.length ≤ 10 := by
  simp only [handle_text]
  split
  · exact h
  split
  · exact Nat.zero_le 10
  split
  · exact Nat.zero_le 10
  split
  · exact h
  · exact h

/-- The timeout handler keeps the history at 10 entries or below. -/
lemma handle_timeout_history_le (e : EngineOutcome) (pt now : ℚ) (st : SttState)
    (h : st.transcription_history.length ≤ 10) :
    (handle_timeout e pt now st).2.transcription_history.length ≤ 10 := by
  simp only [handle_timeout]
  split
  · exact process_history_le e pt now st h
  split
  · exact h
  · exact h

/-- Every loop iteration keeps the history at 10 entries or below. -/
lemma step_history_le (i : Inbound) (st : SttState)
    (h : st.transcription_history.length ≤ 10) :
    (step i st).2.1.transcription_history.length ≤ 10 := by
  cases i with
  | bytesMsg chunk e pt now => exact handle_bytes_history_le e pt now chunk st h
  | textMsg raw e pt now => exact handle_text_history_le e pt now raw st h
  | timeoutTick e pt now => exact handle_timeout_history_le e pt now st h
  | disconnect => exact h

/-- The history bound is preserved by any run of the loop. -/
lemma run_history_le (inputs : List Inbound) (st : SttState)
    (h : st.transcription_history.length ≤ 10) :
    (run inputs st).transcription_history.length ≤ 10 := by
  induction inputs generalizing st with
  | nil => exact h
  | cons i rest ih => exact ih _ (step_history_le i st h)

/-- C4: in every session state reachable from the initial state, the
transcription history holds at most 10 entries, and on such histories the
push performed after each pass is FIFO: a plain append below 10 entries,
and an append with the oldest (head) entry evicted at 10 entries. -/
theorem c4_history_bounded_fifo :
    (∀ (inputs : List Inbound) (t0 : ℚ),
        (run inputs (initState t0)).transcription_history.length ≤ 10) ∧
      ∀ (h : List Event) (t : Event), h.length ≤ 10 →
        pushHistory h t = if h.length < 10 then h ++ [t] else h.tail ++ [t] := by
  constructor
  · intro inputs t0
    exact run_history_le inputs _ (Nat.zero_le 10)
  · exact pushHistory_eq

/-- Witness for C4: a short concrete run, and a concrete FIFO push. -/
theorem c4_history_bounded_fifo_witness :
    (run [Inbound.textMsg "ping" (.ok "a" "en") 0 1] (initState 0)).transcription_history.length
        ≤ 10 ∧
      (([] : List Event).length ≤ 10 ∧
        pushHistory [] { type := "pong" }
          = if ([] : List Event).length < 10
              then [] ++ [{ type := "pong" }]
              else ([] : List Event).tail ++ [{ type := "pong" }]) :=
  ⟨c4_history_bounded_fifo.1 [Inbound.textMsg "ping" (.ok "a" "en") 0 1] 0,
   by decide, c4_history_bounded_fifo.2 [] { type := "pong" } (by decide)⟩

/-! ## Claim C5 -/

/-- A two-entry history in which the first transcription pass detected no
speech (empty text, diagnostic note attached) and the second recognized
"hello". -/
def historyWithSilentSegment : List Event :=
  [mkTranscription "" "en" 3 4 4096, mkTranscription "hello" "en" 3 5 4096]

/-- A session state carrying that history and an empty buffer. -/
def stateWithSilentSegment : SttState :=
  { audio_buffer := [], last_process_time := 0, last_chunk_time := 0,
    transcription_history := historyWithSilentSegment }

/-- C5 counterexample: with a history containing an empty-text entry
(a recorded "no speech detected" pass), the `session_complete` event's
`full_text` is "hello" — the empty text fields are filtered out before
joining — whereas joining the text fields of all history entries with a
single space would give " hello". -/
theorem c5_counterexample :
    (handle_text (.ok "x" "en") 0 9 "stop_recording" stateWithSilentSegment).1
        = [sessionSummary historyWithSilentSegment] ∧
      (sessionSummary historyWithSilentSegment).full_text = some "hello" ∧
      String.intercalate " "
          (historyWithSilentSegment.map fun t => t.text.getD "") = " hello" ∧
      ¬ ((sessionSummary historyWithSilentSegment).full_text
          = some (String.intercalate " "
              (historyWithSilentSegment.map fun t => t.text.getD ""))) := by
  refine ⟨?_, by decide, by decide, by decide⟩
  rw [handle_text_stop_eq]
  rw [if_neg (by decide)]
  rfl

/-- C5 (amended): the `session_complete` event is always the last event
emitted by the stop handler; its `full_text` joins the non-empty text
fields of the history entries (as they stand after any final forced pass)
with single spaces, and its `total_segments` counts all history entries,
empty-text ones included. -/
theorem c5_session_summary_fields (e : EngineOutcome) (pt now : ℚ) (st : SttState) :
    ((handle_text e pt now "stop_recording" st).1).getLast?
        = some (sessionSummary
            (if st.audio_buffer.length > 0
              then process_audio_buffer e pt now st
              else (none, st)).2.transcription_history) ∧
      ∀ hist : List Event, sessionSummary hist =
        { type := "session_complete",
          full_text := some (String.intercalate " "
            ((hist.map fun t => t.text.getD "").filter fun s => s ≠ "")),
          total_segments := some hist.length } := by
  constructor
  · rw [handle_text_stop_eq]
    exact List.getLast?_concat _
  · intro hist
    rfl

/-! ## Claim C6 -/

/-- A session state with exactly `min_chunk_size` buffered bytes. -/
def fullBufferState : SttState :=
  { audio_buffer := List.replicate 4096 1, last_process_time := 0, last_chunk_time := 0,
    transcription_history := [] }

/-- The concrete full buffer holds exactly 4096 bytes. -/
lemma fullBufferState_len : fullBufferState.audio_buffer.length = 4096 := by
  show (List.replicate 4096 1).length = 4096
  rw [List.length_replicate]

/-- C6: when no chunk has arrived for more than `silence_threshold`
seconds and the buffer is non-empty, the timeout tick flushes on silence:
it runs a pass (whose result, if any, is relabelled
`silence_transcription`), empties the buffer completely — a full reset,
not the 50% overlap retention — and advances `last_process_time`. -/
theorem c6_silence_flush_resets_buffer (e : EngineOutcome) (pt now : ℚ) (st : SttState)
    (h1 : now - st.last_chunk_time > silence_threshold)
    (h2 : 0 < st.audio_buffer.length) :
    (handle_timeout e pt now st).2.audio_buffer = [] ∧
      (handle_timeout e pt now st).2.last_process_time = now ∧
      (handle_timeout e pt now st).1
        = ((process_audio_buffer e pt now st).1.map (setType "silence_transcription")).toList := by
  rw [handle_timeout_silence_eq e pt now st ⟨h1, h2⟩]
  exact ⟨rfl, rfl, rfl⟩

/-- Witness for C6: a full 4096-byte buffer, 6 seconds after the last
chunk. -/
theorem c6_silence_flush_resets_buffer_witness :
    ((6 : ℚ) - fullBufferState.last_chunk_time > silence_threshold ∧
        0 < fullBufferState.audio_buffer.length) ∧
      ((handle_timeout (.ok "hi" "en") 0 6 fullBufferState).2.audio_buffer = [] ∧
        (handle_timeout (.ok "hi" "en") 0 6 fullBufferState).2.last_process_time = 6 ∧
        (handle_timeout (.ok "hi" "en") 0 6 fullBufferState).1
          = ((process_audio_buffer (.ok "hi" "en") 0 6 fullBufferState).1.map
              (setType "silence_transcription")).toList) :=
  ⟨⟨by norm_num [fullBufferState, silence_threshold],
    by rw [fullBufferState_len]; decide⟩,
   c6_silence_flush_resets_buffer (.ok "hi" "en") 0 6 fullBufferState
     (by norm_num [fullBufferState, silence_threshold])
     (by rw [fullBufferState_len]; decide)⟩

/-! ## Claim C7 -/

/-- C7: when the engine throws during a size/time-triggered pass, the loop
iteration sends the peer the chunk acknowledgement followed by an `error`
event carrying the failure message, and the loop continues (the `true`
continuation flag): a single failed pass never tears down the session. -/
theorem c7_engine_error_is_sent_and_loop_continues (msg : String) (pt now : ℚ)
    (chunk : List Nat) (st : SttState)
    (hsp : now - st.last_process_time ≥ process_interval ∨
           (st.audio_buffer ++ chunk).length ≥ min_chunk_size * 2)
    (hmin : min_chunk_size ≤ (st.audio_buffer ++ chunk).length) :
    (step (.bytesMsg chunk (.exn msg) pt now) st).1
        = [chunkAck chunk.length (st.audio_buffer ++ chunk).length,
           { type := "error", message := some ("Transcription failed: " ++ msg) }] ∧
      (step (.bytesMsg chunk (.exn msg) pt now) st).2.2 = true := by
  constructor
  · show (handle_bytes (.exn msg) pt now chunk st).1 = _
    rw [handle_bytes_process_eq (.exn msg) pt now chunk st hsp]
    rw [process_exn_eq msg pt now _ (by simpa using hmin)]
    rfl
  · rfl

/-- Witness for C7: a 4096-byte chunk arriving 2 seconds after the last
pass, with the engine throwing "boom". -/
theorem c7_engine_error_is_sent_and_loop_continues_witness :
    (((2 : ℚ) - (initState 0).last_process_time ≥ process_interval ∨
        ((initState 0).audio_buffer ++ List.replicate 4096 1).length ≥ min_chunk_size * 2) ∧
      min_chunk_size ≤ ((initState 0).audio_buffer ++ List.replicate 4096 1).length) ∧
      ((step (.bytesMsg (List.replicate 4096 1) (.exn "boom") 0 2) (initState 0)).1
          = [chunkAck (List.replicate 4096 1).length
               ((initState 0).audio_buffer ++ List.replicate 4096 1).length,
             { type := "error", message := some ("Transcription failed: " ++ "boom") }] ∧
        (step (.bytesMsg (List.replicate 4096 1) (.exn "boom") 0 2) (initState 0)).2.2 = true) :=
  ⟨⟨Or.inl (by norm_num [initState, process_interval]),
    by show min_chunk_size ≤ (List.replicate 4096 1).length
       rw [List.length_replicate]; decide⟩,
   c7_engine_error_is_sent_and_loop_continues "boom" 0 2 (List.replicate 4096 1) (initState 0)
     (Or.inl (by norm_num [initState, process_interval]))
     (by show min_chunk_size ≤ (List.replicate 4096 1).length
         rw [List.length_replicate]; decide)⟩

/-! ## Claim C8 -/

/-- C8: handling a `ping` control token emits exactly one `pong` event and
returns the session state unchanged; iterating the `ping` handling any
number of times from any state leaves the state (in particular buffer and
history) unchanged. -/
theorem c8_ping_is_pure (e : EngineOutcome) (pt now : ℚ) (st : SttState) (n : ℕ) :
    handle_text e pt now "ping" st = ([{ type := "pong" }], st) ∧
      (fun s => (handle_text e pt now "ping" s).2)^[n] st = st := by
  refine ⟨handle_text_ping_eq e pt now st, ?_⟩
  induction n with
  | zero => rfl
  | succ k ih =>
      rw [Function.iterate_succ_apply]
      have hfix : (handle_text e pt now "ping" st).2 = st := by
        rw [handle_text_ping_eq]
      rw [hfix]
      exact ih

/-! ## Claim C9 -/

/-- C9: when the engine throws during a size/time-triggered pass, the
post-pass bookkeeping still runs exactly as on success: `last_process_time`
is advanced to now and the buffer is trimmed to its trailing half whenever
it exceeds `2 * min_chunk_size` — so the discarded front half is never
retried.  The history alone distinguishes the error run from a successful
one: the final state of the error run is the final state of the successful
run with the history rolled back. -/
theorem c9_error_pass_still_updates_state (msg text lang : String) (pt now : ℚ)
    (chunk : List Nat) (st : SttState)
    (hsp : now - st.last_process_time ≥ process_interval ∨
           (st.audio_buffer ++ chunk).length ≥ min_chunk_size * 2)
    (hmin : min_chunk_size ≤ (st.audio_buffer ++ chunk).length) :
    (handle_bytes (.exn msg) pt now chunk st).2.last_process_time = now ∧
      (handle_bytes (.exn msg) pt now chunk st).2.audio_buffer
        = retain_overlap (st.audio_buffer ++ chunk) ∧
      (handle_bytes (.exn msg) pt now chunk st).2.transcription_history
        = st.transcription_history ∧
      (handle_bytes (.exn msg) pt now chunk st).2
        = { (handle_bytes (.ok text lang) pt now chunk st).2 with
              transcription_history := st.transcription_history } := by
  rw [handle_bytes_process_eq (.exn msg) pt now chunk st hsp,
      handle_bytes_process_eq (.ok text lang) pt now chunk st hsp]
  have hmin' : ¬ ((st.audio_buffer ++ chunk).length < min_chunk_size) :=
    Nat.not_lt.mpr hmin
  simp only [process_exn_snd, process_buffer, process_audio_buffer, if_neg hmin']
  exact ⟨trivial, trivial, trivial, trivial⟩

/-- Witness for C9: same failing input as the C7 witness. -/
theorem c9_error_pass_still_updates_state_witness :
    (((2 : ℚ) - (initState 0).last_process_time ≥ process_interval ∨
        ((initState 0).audio_buffer ++ List.replicate 4096 1).length ≥ min_chunk_size * 2) ∧
      min_chunk_size ≤ ((initState 0).audio_buffer ++ List.replicate 4096 1).length) ∧
      ((handle_bytes (.exn "boom") 0 2 (List.replicate 4096 1)
            (initState 0)).2.last_process_time = 2 ∧
        (handle_bytes (.exn "boom") 0 2 (List.replicate 4096 1) (initState 0)).2.audio_buffer
          = retain_overlap ((initState 0).audio_buffer ++ List.replicate 4096 1) ∧
        (handle_bytes (.exn "boom") 0 2 (List.replicate 4096 1)
            (initState 0)).2.transcription_history
          = (initState 0).transcription_history ∧
        (handle_bytes (.exn "boom") 0 2 (List.replicate 4096 1) (initState 0)).2
          = { (handle_bytes (.ok "hi" "en") 0 2 (List.replicate 4096 1) (initState 0)).2 with
                transcription_history := (initState 0).transcription_history }) :=
  ⟨⟨Or.inl (by norm_num [initState, process_interval]),
    by show min_chunk_size ≤ (List.replicate 4096 1).length
       rw [List.length_replicate]; decide⟩,
   c9_error_pass_still_updates_state "boom" "hi" "en" 0 2 (List.replicate 4096 1) (initState 0)
     (Or.inl (by norm_num [initState, process_interval]))
     (by show min_chunk_size ≤ (List.replicate 4096 1).length
         rw [List.length_replicate]; decide)⟩

/-! ## Claim C10 -/

/-- C10: when `stop_recording` is handled with at least `min_chunk_size`
buffered bytes and the engine throws during the final pass, the error dict
is relabelled before sending: the peer receives an event of type
`final_transcription` carrying the failure message, followed by the
session summary — and no event of type `error` is emitted on this path. -/
theorem c10_stop_error_relabelled_final (msg : String) (pt now : ℚ) (st : SttState)
    (hmin : min_chunk_size ≤ st.audio_buffer.length) :
    (handle_text (.exn msg) pt now "stop_recording" st).1
        = [{ type := "final_transcription",
             message := some ("Transcription failed: " ++ msg) },
           sessionSummary st.transcription_history] ∧
      ∀ ev ∈ (handle_text (.exn msg) pt now "stop_recording" st).1,
        ev.type ≠ "error" := by
  have h0 : st.audio_buffer.length > 0 := by
    have : (0 : ℕ) < min_chunk_size := by decide
    omega
  have hev : (handle_text (.exn msg) pt now "stop_recording" st).1
      = [{ type := "final_transcription",
           message := some ("Transcription failed: " ++ msg) },
         sessionSummary st.transcription_history] := by
    rw [handle_text_stop_eq]
    rw [if_pos h0, process_exn_eq msg pt now st hmin]
    rfl
  refine ⟨hev, ?_⟩
  intro ev hmem
  rw [hev] at hmem
  simp only [List.mem_cons, List.not_mem_nil, or_false] at hmem
  rcases hmem with hmem | hmem
  · subst hmem
    show "final_transcription" ≠ "error"
    decide
  · subst hmem
    show "session_complete" ≠ "error"
    decide

/-- Witness for C10: a full 4096-byte buffer with the engine throwing. -/
theorem c10_stop_error_relabelled_final_witness :
    (min_chunk_size ≤ fullBufferState.audio_buffer.length) ∧
      ((handle_text (.exn "boom") 0 9 "stop_recording" fullBufferState).1
          = [{ type := "final_transcription",
               message := some ("Transcription failed: " ++ "boom") },
             sessionSummary fullBufferState.transcription_history] ∧
        ∀ ev ∈ (handle_text (.exn "boom") 0 9 "stop_recording" fullBufferState).1,
          ev.type ≠ "error") :=
  ⟨by rw [fullBufferState_len]; decide,
   c10_stop_error_relabelled_final "boom" 0 9 fullBufferState
     (by rw [fullBufferState_len]; decide)⟩

end RealtimeSTT
